import Mathlib

/-!
Verification of the Reflect event/stats collation service (`reflect.py`).

The service ingests a line-oriented event feed, reduces it into a per-stream
in-memory table (`streams`), and republishes it as a JSON snapshot.  We embed
the ingestion pipeline shallowly:

* Python strings become `List Char`;
* the global `streams` dict becomes an association list `Store`;
* per-stream dicts (which may lack keys) become `StreamRecord`, a structure of
  `Option` fields: `none` models an absent dict key;
* Python exceptions (`ValueError` from `int(...)`, `TypeError` from a missing
  required argument) become an `Option PyErr` result paired with the store as
  mutated up to the raise point, since the global dict keeps its mutations
  when an exception propagates.
-/

set_option autoImplicit false

namespace Reflect

/-- Convert a string literal to the character-list representation used here. -/
def chars (s : String) : List Char := s.toList

/-- ASCII lowercasing of one character, as Python 2 `str.lower` does on the
ASCII action/key tokens compared against here. -/
def asciiLower (c : Char) : Char :=
  if 'A' ≤ c ∧ c ≤ 'Z' then Char.ofNat (c.toNat + 32) else c

/-- `s.lower()` on a byte string. -/
def lowerStr (s : List Char) : List Char := s.map asciiLower

/-- Python whitespace characters recognised by `str.strip()`. -/
def isPySpace (c : Char) : Bool :=
  c = ' ' || c = '\t' || c = '\n' || c = '\x0b' || c = '\x0c' || c = '\r'

/-- `s.strip()`: remove leading and trailing whitespace. -/
def pyStrip (s : List Char) : List Char :=
  ((s.dropWhile isPySpace).reverse.dropWhile isPySpace).reverse

/-- `s.split(sep)` for a one-character separator `c`, Python semantics:
always returns at least one (possibly empty) piece, keeps empty pieces. -/
def splitOnChar (c : Char) : List Char → List (List Char)
  | [] => [[]]
  | x :: xs =>
    let r := splitOnChar c xs
    if x = c then [] :: r
    else (x :: r.headD []) :: r.tail

/-- `s.split(sep, maxsplit)` for a one-character separator: at most `n`
splits are performed, the remainder is kept whole as the last piece. -/
def pySplitMax (c : Char) : Nat → List Char → List (List Char)
  | _, [] => [[]]
  | 0, xs => [xs]
  | n + 1, x :: xs =>
    if x = c then [] :: pySplitMax c n xs
    else
      let r := pySplitMax c (n + 1) xs
      (x :: r.headD []) :: r.tail

/-- Digit run to a natural number. -/
def digitsToNat (ds : List Char) : Nat :=
  ds.foldl (fun a c => a * 10 + (c.toNat - '0'.toNat)) 0

/-- Python 2 `int(value)` on a string: optional surrounding whitespace,
optional sign, then a non-empty digit run; anything else raises
`ValueError`, modelled as `none`. -/
def pyInt (s : List Char) : Option Int :=
  let t := pyStrip s
  match t with
  | '+' :: ds =>
    if !ds.isEmpty && ds.all Char.isDigit then some (digitsToNat ds) else none
  | '-' :: ds =>
    if !ds.isEmpty && ds.all Char.isDigit then some (-(digitsToNat ds : Int)) else none
  | ds =>
    if !ds.isEmpty && ds.all Char.isDigit then some (digitsToNat ds) else none

/-- The Python exceptions the ingestion path can raise. -/
inductive PyErr where
  /-- `ValueError` from `int(...)` on a non-numeric string. -/
  | valueError : PyErr
  /-- `TypeError` from calling `action_event(stream)` without its required
  `key` argument. -/
  | typeError : PyErr
deriving DecidableEq, Repr

/-- One per-stream dict.  The Python code stores a plain `dict` per stream, so
any of the four keys may be absent; `none` models absence. -/
structure StreamRecord where
  connected : Option Int
  listeners : Option Int
  listener_peak : Option Int
  title : Option (List Char)
deriving DecidableEq, Repr

/-- `streams[stream] = {}`: the freshly created per-stream dict. -/
def emptyRecord : StreamRecord := ⟨none, none, none, none⟩

/-- Which of the four keys are present in a record, i.e. which keys its JSON
serialization by `json.dumps` contains. -/
def recordKeys (r : StreamRecord) : List (List Char) :=
  (if r.connected.isSome then [chars "connected"] else []) ++
  (if r.listeners.isSome then [chars "listeners"] else []) ++
  (if r.listener_peak.isSome then [chars "listener_peak"] else []) ++
  (if r.title.isSome then [chars "title"] else [])

/-- Does a record carry all four fields? -/
def hasAllFields (r : StreamRecord) : Bool :=
  r.connected.isSome && r.listeners.isSome && r.listener_peak.isSome && r.title.isSome

/-- The global `streams` dict: stream id to record. -/
abbrev Store := List (List Char × StreamRecord)

/-- Dict lookup `streams[k]` / `streams.has_key(k)`. -/
def Store.find : Store → List Char → Option StreamRecord
  | [], _ => none
  | (k', r) :: rest, k => if k' = k then some r else Store.find rest k

/-- Dict assignment `streams[k] = r`. -/
def Store.set : Store → List Char → StreamRecord → Store
  | [], k, r => [(k, r)]
  | (k', r') :: rest, k, r =>
    if k' = k then (k, r) :: rest else (k', r') :: Store.set rest k r

/-- `streams[k]['field'] = v`-style read-modify-write of an existing entry.
Every call site in the embedded code runs after `dispatch` has ensured the
entry exists, so the `none` branch is unreachable there. -/
def Store.updateRecord (st : Store) (k : List Char) (f : StreamRecord → StreamRecord) : Store :=
  match st.find k with
  | some r => st.set k (f r)
  | none => st

/-- `EventHandler.dispatch`: look up `key_<key.lower()>` and run it.  The five
`key_*` methods are inlined as the branches; an unknown key finds no handler
and does nothing.  `key_listeners` ignores the `global` stream; the three
integer-valued handlers call `int(value)`, whose failure raises `ValueError`. -/
def eventDispatch (st : Store) (stream key value : List Char) : Store × Option PyErr :=
  let k := lowerStr key
  if k = chars "new" then
    (st, none)
  else if k = chars "listeners" then
    if stream = chars "global" then (st, none)
    else
      match pyInt value with
      | some n => (st.updateRecord stream (fun r => ⟨r.connected, some n, r.listener_peak, r.title⟩), none)
      | none => (st, some PyErr.valueError)
  else if k = chars "connected" then
    match pyInt value with
    | some n => (st.updateRecord stream (fun r => ⟨some n, r.listeners, r.listener_peak, r.title⟩), none)
    | none => (st, some PyErr.valueError)
  else if k = chars "title" then
    (st.updateRecord stream (fun r => ⟨r.connected, r.listeners, r.listener_peak, some value⟩), none)
  else if k = chars "listener_peak" then
    match pyInt value with
    | some n => (st.updateRecord stream (fun r => ⟨r.connected, r.listeners, some n, r.title⟩), none)
    | none => (st, some PyErr.valueError)
  else
    (st, none)

/-- `if not streams.has_key(stream): streams[stream] = {}` -/
def ensureStream (st : Store) (stream : List Char) : Store :=
  if (st.find stream).isSome then st else st.set stream emptyRecord

/-- `ActionHandler.dispatch`: look up `action_<action.lower()>`; when a
handler exists, first create an empty record for an unseen stream, then run
the handler.  `action_new` sets `connected = 1`; `action_delete` sets
`connected = 0`, `listeners = 0`, `title = ""`; `action_event` forwards to
the key reducer, raising `TypeError` when called without a `key` token and
defaulting `value` to the empty string.  An unrecognised action does
nothing.  The caller always passes at least two tokens. -/
def actionDispatch (st : Store) (values : List (List Char)) : Store × Option PyErr :=
  match values with
  | action :: stream :: args =>
    let a := lowerStr action
    if a = chars "new" ∨ a = chars "delete" ∨ a = chars "event" then
      let st1 := ensureStream st stream
      if a = chars "new" then
        (st1.updateRecord stream (fun r => ⟨some 1, r.listeners, r.listener_peak, r.title⟩), none)
      else if a = chars "delete" then
        (st1.updateRecord stream (fun r => ⟨some 0, some 0, r.listener_peak, some []⟩), none)
      else
        match args with
        | [] => (st1, some PyErr.typeError)
        | [key] => eventDispatch st1 stream key []
        | key :: value :: _ => eventDispatch st1 stream key value
    else
      (st, none)
  | _ => (st, none)

/-- The tokenization applied to each complete line in `handle_update`:
`line.strip().split(' ', 3)`. -/
def tokenize (line : List Char) : List (List Char) :=
  pySplitMax ' ' 3 (pyStrip line)

/-- The body of the `for line in lines[:-1]` loop: tokenize, skip lines with
fewer than two tokens, otherwise dispatch. -/
def processLine (st : Store) (line : List Char) : Store × Option PyErr :=
  let values := tokenize line
  if values.length < 2 then (st, none) else actionDispatch st values

/-- The `for` loop over complete lines.  An exception raised by a line
propagates out of `handle_update`, so the remaining lines are not
processed; the store keeps the mutations made so far. -/
def processLines (st : Store) : List (List Char) → Store × Option PyErr
  | [] => (st, none)
  | l :: ls =>
    match processLine st l with
    | (st', none) => processLines st' ls
    | (st', some e) => (st', some e)

/-- The line-reassembly step of `handle_update` (its parser layer):
`lines = (self.buffer + content).split("\n")`, the last piece becomes the
new buffer, the other pieces are the complete lines. -/
def feed (buf chunk : List Char) : List (List Char) × List Char :=
  let lines := splitOnChar '\n' (buf ++ chunk)
  (lines.dropLast, lines.getLastD [])

/-- `feed` iterated over several chunks, threading the pending buffer and
collecting the complete lines in order. -/
def feedMany (buf : List Char) : List (List Char) → List (List Char) × List Char
  | [] => ([], buf)
  | c :: cs =>
    let (ls, b') := feed buf c
    let (ls', b'') := feedMany b' cs
    (ls ++ ls', b'')

/-- The mutable state of `ServiceHandler` that the embedded callbacks touch:
the pending line buffer, the backoff factor, and the global `streams` dict. -/
structure ServiceState where
  buffer : List Char
  backoff : Nat
  store : Store
deriving DecidableEq, Repr

/-- `ServiceHandler.__init__` state: empty buffer, backoff 1, together with
the module-level `streams = {}`. -/
def initialService : ServiceState := ⟨[], 1, []⟩

/-- `ServiceHandler.handle_disconnect`: schedule a reconnect after the
current backoff, then double the backoff.  Returns the scheduled delay and
the new state. -/
def handle_disconnect (s : ServiceState) : Nat × ServiceState :=
  (s.backoff, ⟨s.buffer, s.backoff * 2, s.store⟩)

/-- `ServiceHandler.handle_update`: reset the backoff to 1, reassemble lines
from the buffer and the chunk, store the trailing partial line back in the
buffer, then process each complete line; an exception from a line escapes
with the state as mutated so far. -/
def handle_update (s : ServiceState) (content : List Char) : ServiceState × Option PyErr :=
  let (lns, buf') := feed s.buffer content
  let (st', e) := processLines s.store lns
  (⟨buf', 1, st'⟩, e)

/-- Proof-side view of a one-character split: the complete pieces together
with the trailing piece after the last separator.  Compared against
`splitOnChar` below. -/
def splitCh (c : Char) : List Char → List (List Char) × List Char
  | [] => ([], [])
  | x :: xs =>
    let (segs, trail) := splitCh c xs
    if x = c then ([] :: segs, trail)
    else
      match segs with
      | [] => ([], x :: trail)
      | s :: ss => ((x :: s) :: ss, trail)

theorem splitOnChar_eq_splitCh (c : Char) :
    ∀ xs : List Char, splitOnChar c xs = (splitCh c xs).1 ++ [(splitCh c xs).2] := by
  intro xs
  induction xs with
  | nil => rfl
  | cons x xs ih =>
    simp only [splitOnChar, splitCh]
    by_cases hx : x = c
    · simp [hx, ih]
    · simp only [hx, if_false, ih]
      cases h : (splitCh c xs).1 with
      | nil => simp [h]
      | cons s ss => simp [h]

theorem splitCh_trail_not_mem (c : Char) :
    ∀ xs : List Char, c ∉ (splitCh c xs).2 := by
  intro xs
  induction xs with
  | nil => simp [splitCh]
  | cons x xs ih =>
    simp only [splitCh]
    by_cases hx : x = c
    · simpa [hx] using ih
    · cases h : (splitCh c xs).1 with
      | nil =>
        simp only [hx, if_false, h]
        intro hmem
        rcases List.mem_cons.mp hmem with h1 | h2
        · exact hx h1.symm
        · exact ih (by simpa [h] using h2)
      | cons s ss => simpa [hx, h] using (by simpa [h] using ih)

theorem splitCh_of_not_mem (c : Char) :
    ∀ xs : List Char, c ∉ xs → splitCh c xs = ([], xs) := by
  intro xs
  induction xs with
  | nil => simp [splitCh]
  | cons x xs ih =>
    intro hmem
    have hx : ¬ (x = c) := fun h => hmem (by simp [h])
    have hxs : c ∉ xs := fun h => hmem (List.mem_cons_of_mem _ h)
    simp [splitCh, ih hxs, hx]

/-- How two split results combine when the underlying strings are
concatenated: the first trailing piece merges with the first piece of the
second split. -/
def mergeSplit (p q : List (List Char) × List Char) : List (List Char) × List Char :=
  match q.1 with
  | [] => (p.1, p.2 ++ q.2)
  | h :: tl => (p.1 ++ (p.2 ++ h) :: tl, q.2)

theorem splitCh_append (c : Char) (xs ys : List Char) :
    splitCh c (xs ++ ys) = mergeSplit (splitCh c xs) (splitCh c ys) := by
  induction xs with
  | nil =>
    rcases hy : splitCh c ys with ⟨s2, t2⟩
    cases s2 <;> simp [splitCh, mergeSplit, hy]
  | cons x xs ih =>
    rcases hy : splitCh c ys with ⟨s2, t2⟩
    rcases hx : splitCh c xs with ⟨s1, t1⟩
    rw [hy, hx] at ih
    show splitCh c (x :: (xs ++ ys)) = mergeSplit (splitCh c (x :: xs)) (s2, t2)
    simp only [splitCh, ih, hx]
    by_cases hc : x = c
    · cases s2 <;> simp [hc, mergeSplit]
    · cases s1 <;> cases s2 <;> simp [hc, mergeSplit]

theorem feed_eq_splitCh (buf chunk : List Char) :
    feed buf chunk = splitCh '\n' (buf ++ chunk) := by
  unfold feed
  rw [splitOnChar_eq_splitCh]
  ext1
  · simp
  · simp

theorem feed_trail_not_mem (buf chunk : List Char) : '\n' ∉ (feed buf chunk).2 := by
  rw [feed_eq_splitCh]
  exact splitCh_trail_not_mem _ _

/-- Feeding `a ++ b` in one go is the same as feeding `a` then `b`. -/
theorem feed_append (buf a b : List Char) :
    feed buf (a ++ b) =
      ((feed buf a).1 ++ (feed (feed buf a).2 b).1, (feed (feed buf a).2 b).2) := by
  have hmid : '\n' ∉ (feed buf a).2 := feed_trail_not_mem buf a
  rw [feed_eq_splitCh] at hmid
  rw [feed_eq_splitCh, feed_eq_splitCh, feed_eq_splitCh, ← List.append_assoc]
  rw [splitCh_append '\n' (buf ++ a) b, splitCh_append '\n' (splitCh '\n' (buf ++ a)).2 b,
    splitCh_of_not_mem '\n' _ hmid]
  rcases hb : splitCh '\n' b with ⟨s2, t2⟩
  cases s2 <;> simp [mergeSplit]

/-- Feeding the chunks one at a time equals feeding their concatenation,
provided the starting buffer holds no newline (true of every buffer the
parser ever produces, and of the empty initial buffer). -/
theorem feedMany_eq_feed_flatten (cs : List (List Char)) :
    ∀ buf : List Char, '\n' ∉ buf → feedMany buf cs = feed buf cs.flatten := by
  induction cs with
  | nil =>
    intro buf hbuf
    simp only [feedMany, List.flatten_nil]
    rw [feed_eq_splitCh, List.append_nil, splitCh_of_not_mem '\n' buf hbuf]
  | cons c cs ih =>
    intro buf hbuf
    simp only [feedMany, List.flatten_cons]
    rw [feed_append buf c cs.flatten]
    rw [← ih (feed buf c).2 (feed_trail_not_mem buf c)]

/-- Join pieces back with a separator (inverse view of a split). -/
def joinWith (sep : List Char) : List (List Char) → List Char
  | [] => []
  | [x] => x
  | x :: y :: xs => x ++ sep ++ joinWith sep (y :: xs)

theorem pySplitMax_ne_nil (c : Char) : ∀ (n : Nat) (xs : List Char), pySplitMax c n xs ≠ [] := by
  intro n xs
  induction xs generalizing n with
  | nil => simp [pySplitMax]
  | cons x xs ih =>
    cases n with
    | zero => simp [pySplitMax]
    | succ n =>
      simp only [pySplitMax]
      by_cases hx : x = c
      · simp [hx]
      · simp [hx]

theorem pySplitMax_length_le (c : Char) :
    ∀ (n : Nat) (xs : List Char), (pySplitMax c n xs).length ≤ n + 1 := by
  intro n xs
  induction xs generalizing n with
  | nil => simp [pySplitMax]
  | cons x xs ih =>
    cases n with
    | zero => simp [pySplitMax]
    | succ n =>
      simp only [pySplitMax]
      by_cases hx : x = c
      · simpa [hx] using Nat.succ_le_succ (ih n)
      · simp only [hx, if_false]
        rcases h : pySplitMax c (n + 1) xs with _ | ⟨s, ss⟩
        · exact absurd h (pySplitMax_ne_nil c (n + 1) xs)
        · have := ih (n + 1)
          rw [h] at this
          simpa using this

theorem joinWith_pySplitMax (c : Char) :
    ∀ (n : Nat) (xs : List Char), joinWith [c] (pySplitMax c n xs) = xs := by
  intro n xs
  induction xs generalizing n with
  | nil => simp [pySplitMax, joinWith]
  | cons x xs ih =>
    cases n with
    | zero => simp [pySplitMax, joinWith]
    | succ n =>
      simp only [pySplitMax]
      by_cases hx : x = c
      · rcases h : pySplitMax c n xs with _ | ⟨s, ss⟩
        · exact absurd h (pySplitMax_ne_nil c n xs)
        · have hj := ih n
          rw [h] at hj
          simp [hx, h, joinWith, ← hj]
      · rcases h : pySplitMax c (n + 1) xs with _ | ⟨s, ss⟩
        · exact absurd h (pySplitMax_ne_nil c (n + 1) xs)
        · have hj := ih (n + 1)
          rw [h] at hj
          cases ss with
          | nil => simp [hx, h, joinWith] at hj ⊢; simp [hj]
          | cons s' ss' =>
            simp only [hx, if_false, h, List.headD, List.tail]
            simp only [joinWith, List.cons_append] at hj ⊢
            simp [hj]

theorem find_set_self (st : Store) (k : List Char) (r : StreamRecord) :
    (st.set k r).find k = some r := by
  induction st with
  | nil => simp [Store.set, Store.find]
  | cons p rest ih =>
    rcases p with ⟨k', r'⟩
    by_cases h : k' = k
    · simp [Store.set, Store.find, h]
    · simp [Store.set, Store.find, h, ih]

theorem find_set_ne (st : Store) (k k' : List Char) (r : StreamRecord) (h : k' ≠ k) :
    (st.set k r).find k' = st.find k' := by
  induction st with
  | nil => simp [Store.set, Store.find, Ne.symm h]
  | cons p rest ih =>
    rcases p with ⟨k0, r0⟩
    by_cases h0 : k0 = k
    · subst h0
      simp [Store.set, Store.find, Ne.symm h]
    · simp only [Store.set, h0, if_false, Store.find]
      by_cases h1 : k0 = k'
      · simp [h1]
      · simp [h1, ih]

theorem find_ensure_self (st : Store) (s : List Char) :
    (ensureStream st s).find s = some ((st.find s).getD emptyRecord) := by
  unfold ensureStream
  cases h : st.find s with
  | none => simp [h, find_set_self]
  | some r => simp [h]

theorem find_ensure_ne (st : Store) (s s' : List Char) (h : s' ≠ s) :
    (ensureStream st s).find s' = st.find s' := by
  unfold ensureStream
  cases hf : st.find s with
  | none => simp [hf, find_set_ne st s s' _ h]
  | some r => simp [hf]

theorem find_updateRecord_self (st : Store) (k : List Char) (f : StreamRecord → StreamRecord) :
    (st.updateRecord k f).find k = (st.find k).map f := by
  unfold Store.updateRecord
  cases h : st.find k with
  | none => simp [h]
  | some r => simp [h, find_set_self]

theorem find_updateRecord_ne (st : Store) (k k' : List Char) (f : StreamRecord → StreamRecord)
    (h : k' ≠ k) : (st.updateRecord k f).find k' = st.find k' := by
  unfold Store.updateRecord
  cases hf : st.find k with
  | none => rfl
  | some r => simp [find_set_ne st k k' _ h]

theorem actionDispatch_event_cons (st : Store) (s key value : List Char)
    (extra : List (List Char)) :
    actionDispatch st (chars "EVENT" :: s :: key :: value :: extra) =
      eventDispatch (ensureStream st s) s key value := rfl

theorem eventDispatch_listeners (st : Store) (s value : List Char) :
    eventDispatch st s (chars "listeners") value =
      if s = chars "global" then (st, none)
      else
        match pyInt value with
        | some n =>
          (st.updateRecord s (fun r => ⟨r.connected, some n, r.listener_peak, r.title⟩), none)
        | none => (st, some PyErr.valueError) := rfl

theorem eventDispatch_connected (st : Store) (s value : List Char) :
    eventDispatch st s (chars "connected") value =
      match pyInt value with
      | some n =>
        (st.updateRecord s (fun r => ⟨some n, r.listeners, r.listener_peak, r.title⟩), none)
      | none => (st, some PyErr.valueError) := rfl

theorem eventDispatch_listener_peak (st : Store) (s value : List Char) :
    eventDispatch st s (chars "listener_peak") value =
      match pyInt value with
      | some n =>
        (st.updateRecord s (fun r => ⟨r.connected, r.listeners, some n, r.title⟩), none)
      | none => (st, some PyErr.valueError) := rfl

/-- C1: for every input string and every way of splitting it into chunks,
feeding the chunks one at a time through the parser (threading the pending
buffer, starting from the empty buffer of `__init__`) yields exactly the
same sequence of complete lines — and hence of tokenized lines — and the
same final pending buffer as feeding the whole string as a single chunk;
in particular feeding `"NEW foo\nEVENT foo listen"` then `"ers 5\n"` yields
exactly the lines `"NEW foo"` and `"EVENT foo listeners 5"`. -/
theorem c1_chunk_split_invariance :
    (∀ chunks : List (List Char),
      feedMany [] chunks = feed [] chunks.flatten ∧
      (feedMany [] chunks).1.map tokenize = (feed [] chunks.flatten).1.map tokenize) ∧
    feedMany [] [chars "NEW foo\nEVENT foo listen", chars "ers 5\n"] =
      ([chars "NEW foo", chars "EVENT foo listeners 5"], []) := by
  constructor
  · intro chunks
    have h := feedMany_eq_feed_flatten chunks [] (by simp)
    exact ⟨h, by rw [h]⟩
  · decide

/-- C2 (counterexample): dispatching the recognized action `NEW foo` on an
empty store creates a record that does NOT carry all four fields: only
`connected` is present, so its JSON serialization contains only the key
`connected`, refuting both the defaulted-creation and the
all-four-keys-in-JSON parts of the claim. -/
theorem c2_counterexample :
    (Store.find (actionDispatch [] [chars "NEW", chars "foo"]).1 (chars "foo")).map hasAllFields
        = some false ∧
    (Store.find (actionDispatch [] [chars "NEW", chars "foo"]).1 (chars "foo")).map recordKeys
        = some [chars "connected"] := by
  decide

/-- C2 (amended): when a recognized action references a stream id with no
existing record, the record is created empty — no fields at all, not four
defaulted ones — and only the fields the handler itself sets become
present; the snapshot serializes only present keys, so after `NEW` the
object has only `connected`, after `DELETE` it lacks `listener_peak`, and
after an `EVENT` with an unrecognized key it is the empty object. -/
theorem c2_amended_lazy_empty_record :
    ∀ (st : Store) (s : List Char), st.find s = none →
      (actionDispatch st [chars "NEW", s]).1.find s = some ⟨some 1, none, none, none⟩ ∧
      (actionDispatch st [chars "DELETE", s]).1.find s = some ⟨some 0, some 0, none, some []⟩ ∧
      (actionDispatch st [chars "EVENT", s, chars "x"]).1.find s = some emptyRecord ∧
      recordKeys emptyRecord = [] := by
  intro st s hs
  have hnew : actionDispatch st [chars "NEW", s] =
      ((ensureStream st s).updateRecord s
        (fun r => ⟨some 1, r.listeners, r.listener_peak, r.title⟩), none) := rfl
  have hdel : actionDispatch st [chars "DELETE", s] =
      ((ensureStream st s).updateRecord s
        (fun r => ⟨some 0, some 0, r.listener_peak, some []⟩), none) := rfl
  have hevt : actionDispatch st [chars "EVENT", s, chars "x"] =
      (ensureStream st s, none) := rfl
  refine ⟨?_, ?_, ?_, rfl⟩
  · rw [hnew]
    simp [find_updateRecord_self, find_ensure_self, hs, emptyRecord]
  · rw [hdel]
    simp [find_updateRecord_self, find_ensure_self, hs, emptyRecord]
  · rw [hevt]
    simp [find_ensure_self, hs]

/-- C2 (witness): the amended statement applied to `NEW foo`, `DELETE foo`
and `EVENT foo x` on the empty store. -/
theorem c2_amended_witness :
    (actionDispatch [] [chars "NEW", chars "foo"]).1.find (chars "foo")
        = some ⟨some 1, none, none, none⟩ ∧
    (actionDispatch [] [chars "DELETE", chars "foo"]).1.find (chars "foo")
        = some ⟨some 0, some 0, none, some []⟩ ∧
    (actionDispatch [] [chars "EVENT", chars "foo", chars "x"]).1.find (chars "foo")
        = some emptyRecord ∧
    recordKeys emptyRecord = [] :=
  c2_amended_lazy_empty_record [] (chars "foo") rfl

/-- C3: dispatching the delete action (any capitalisation, any extra
tokens) on any store leaves no error, sets `connected = 0`,
`listeners = 0`, `title = ""` on the stream's record, keeps the record's
`listener_peak` exactly as it was (absent if it was absent), and leaves
every other stream's record untouched. -/
theorem c3_delete_resets_and_frames :
    ∀ (st : Store) (act s : List Char) (rest : List (List Char)),
      lowerStr act = chars "delete" →
      (actionDispatch st (act :: s :: rest)).2 = none ∧
      (actionDispatch st (act :: s :: rest)).1.find s =
        some ⟨some 0, some 0, (st.find s).bind StreamRecord.listener_peak, some []⟩ ∧
      ∀ s' : List Char, s' ≠ s →
        (actionDispatch st (act :: s :: rest)).1.find s' = st.find s' := by
  intro st act s rest h
  have hred : actionDispatch st (act :: s :: rest) =
      ((ensureStream st s).updateRecord s
        (fun r => ⟨some 0, some 0, r.listener_peak, some []⟩), none) := by
    simp only [actionDispatch, h]
    norm_num
    exact fun hc => absurd hc (by decide)
  rw [hred]
  refine ⟨rfl, ?_, ?_⟩
  · rw [find_updateRecord_self, find_ensure_self]
    cases hf : st.find s <;> simp [hf, emptyRecord]
  · intro s' hs'
    rw [find_updateRecord_ne _ _ _ _ hs', find_ensure_ne _ _ _ hs']

/-- C3 (witness): deleting stream `a` (which had `connected=1, listeners=5,
listener_peak=9, title="t"`) resets the three fields, keeps the peak at 9,
and leaves stream `b` untouched. -/
theorem c3_witness :
    (actionDispatch
        [(chars "a", ⟨some 1, some 5, some 9, some (chars "t")⟩),
         (chars "b", ⟨some 1, none, none, none⟩)]
        [chars "DELETE", chars "a"]).2 = none ∧
    (actionDispatch
        [(chars "a", ⟨some 1, some 5, some 9, some (chars "t")⟩),
         (chars "b", ⟨some 1, none, none, none⟩)]
        [chars "DELETE", chars "a"]).1.find (chars "a")
      = some ⟨some 0, some 0, some 9, some []⟩ ∧
    (actionDispatch
        [(chars "a", ⟨some 1, some 5, some 9, some (chars "t")⟩),
         (chars "b", ⟨some 1, none, none, none⟩)]
        [chars "DELETE", chars "a"]).1.find (chars "b")
      = some ⟨some 1, none, none, none⟩ := by
  have h := c3_delete_resets_and_frames
    [(chars "a", ⟨some 1, some 5, some 9, some (chars "t")⟩),
     (chars "b", ⟨some 1, none, none, none⟩)]
    (chars "DELETE") (chars "a") [] (by decide)
  refine ⟨h.1, ?_, h.2.2 (chars "b") (by decide)⟩
  rw [h.2.1]
  decide

/-- C5: with the backoff starting at 1 as in `__init__`, three consecutive
disconnects with no intervening chunk schedule reconnect delays of exactly
1, 2 and 4 (each delay is the backoff value before doubling), and a chunk
received in any state resets the backoff to 1, so the next scheduled
delay is 1. -/
theorem c5_backoff_schedule :
    (handle_disconnect initialService).1 = 1 ∧
    (handle_disconnect (handle_disconnect initialService).2).1 = 2 ∧
    (handle_disconnect (handle_disconnect (handle_disconnect initialService).2).2).1 = 4 ∧
    ∀ (s : ServiceState) (chunk : List Char),
      ((handle_update s chunk).1).backoff = 1 ∧
      (handle_disconnect (handle_update s chunk).1).1 = 1 := by
  refine ⟨rfl, rfl, rfl, ?_⟩
  intro s chunk
  rcases hf : feed s.buffer chunk with ⟨lns, buf'⟩
  rcases hp : processLines s.store lns with ⟨st', e⟩
  simp [handle_update, handle_disconnect, hf, hp]

/-- C7: `feed` concatenates the pending buffer with the chunk and splits on
the newline character; the last piece of the split becomes the new pending
buffer and the remaining pieces are the complete lines; each complete line
is tokenized by trimming surrounding whitespace and splitting on the space
character into at most 4 tokens, and the final token is never split
further — joining the tokens back with single spaces recovers the trimmed
line exactly, so spaces inside the value are preserved. -/
theorem c7_feed_and_tokenize :
    ∀ (buf chunk line : List Char),
      (feed buf chunk).1 = (splitOnChar '\n' (buf ++ chunk)).dropLast ∧
      (feed buf chunk).2 = (splitOnChar '\n' (buf ++ chunk)).getLastD [] ∧
      tokenize line = pySplitMax ' ' 3 (pyStrip line) ∧
      (tokenize line).length ≤ 4 ∧
      joinWith [' '] (tokenize line) = pyStrip line := by
  intro buf chunk line
  exact ⟨rfl, rfl, rfl, pySplitMax_length_le ' ' 3 (pyStrip line),
    joinWith_pySplitMax ' ' 3 (pyStrip line)⟩

/-- C4: dispatching `EVENT global listeners 42` leaves the `global` record's
`listeners` field unchanged (the update is discarded, no error), while for
every stream id other than `global`, dispatching
`EVENT <stream> listeners 42` sets that stream's `listeners` field to 42. -/
theorem c4_global_listeners_discarded :
    ∀ (st : Store) (s : List Char),
      (Store.find (actionDispatch st
            [chars "EVENT", chars "global", chars "listeners", chars "42"]).1
          (chars "global")).bind StreamRecord.listeners
        = (st.find (chars "global")).bind StreamRecord.listeners ∧
      (actionDispatch st
          [chars "EVENT", chars "global", chars "listeners", chars "42"]).2 = none ∧
      (s ≠ chars "global" →
        (Store.find (actionDispatch st
              [chars "EVENT", s, chars "listeners", chars "42"]).1 s).bind
            StreamRecord.listeners = some 42 ∧
        (actionDispatch st [chars "EVENT", s, chars "listeners", chars "42"]).2 = none) := by
  intro st s
  have hg : actionDispatch st [chars "EVENT", chars "global", chars "listeners", chars "42"]
      = (ensureStream st (chars "global"), none) := rfl
  refine ⟨?_, ?_, ?_⟩
  · rw [hg]
    rw [find_ensure_self]
    cases hf : st.find (chars "global") <;> simp [hf, emptyRecord]
  · rw [hg]
  · intro hs
    have hred : actionDispatch st [chars "EVENT", s, chars "listeners", chars "42"]
        = ((ensureStream st s).updateRecord s
            (fun r => ⟨r.connected, some 42, r.listener_peak, r.title⟩), none) := by
      rw [actionDispatch_event_cons, eventDispatch_listeners, if_neg hs]
      rfl
    rw [hred]
    refine ⟨?_, rfl⟩
    rw [find_updateRecord_self, find_ensure_self]
    simp

/-- C4 (witness): on the empty store, `EVENT global listeners 42` leaves the
`global` listeners field unset while `EVENT other listeners 42` sets
`other`'s listeners to 42 with no error. -/
theorem c4_witness :
    (Store.find (actionDispatch []
          [chars "EVENT", chars "global", chars "listeners", chars "42"]).1
        (chars "global")).bind StreamRecord.listeners
      = (Store.find ([] : Store) (chars "global")).bind StreamRecord.listeners ∧
    (Store.find (actionDispatch []
          [chars "EVENT", chars "other", chars "listeners", chars "42"]).1
        (chars "other")).bind StreamRecord.listeners = some 42 ∧
    (actionDispatch [] [chars "EVENT", chars "other", chars "listeners", chars "42"]).2
      = none := by
  have h := c4_global_listeners_discarded [] (chars "other")
  exact ⟨h.1, (h.2.2 (by decide)).1, (h.2.2 (by decide)).2⟩

/-- C6 (counterexample): feeding the chunk
`"EVENT foo listeners abc\nEVENT foo listeners 5\n"` from the initial
state raises `ValueError` out of the per-line dispatch (the `int("abc")`
call), and the second line of the chunk is never processed: `foo` ends
with no `listeners` field instead of `listeners = 5`.  This refutes the
claim that no exception escapes and that subsequent lines are still
processed. -/
theorem c6_counterexample :
    handle_update initialService (chars "EVENT foo listeners abc\nEVENT foo listeners 5\n") =
      (⟨[], 1, [(chars "foo", emptyRecord)]⟩, some PyErr.valueError) := by
  decide

/-- C6 (amended): an `EVENT` line with a recognized integer-valued key
(`listeners` off the `global` stream, `connected`, or `listener_peak`)
whose value does not parse as an integer raises `ValueError` out of the
per-line dispatch, with the stream's entry already created; an error
raised by a line aborts the processing of all remaining lines of the
chunk. -/
theorem c6_amended_parse_error_raises :
    ∀ (st : Store) (s v : List Char), pyInt v = none →
      (s ≠ chars "global" →
        actionDispatch st [chars "EVENT", s, chars "listeners", v]
          = (ensureStream st s, some PyErr.valueError)) ∧
      actionDispatch st [chars "EVENT", s, chars "connected", v]
        = (ensureStream st s, some PyErr.valueError) ∧
      actionDispatch st [chars "EVENT", s, chars "listener_peak", v]
        = (ensureStream st s, some PyErr.valueError) ∧
      ∀ (l : List Char) (ls : List (List Char)) (st' : Store) (e : PyErr),
        processLine st l = (st', some e) → processLines st (l :: ls) = (st', some e) := by
  intro st s v hv
  refine ⟨?_, ?_, ?_, ?_⟩
  · intro hs
    rw [actionDispatch_event_cons, eventDispatch_listeners, if_neg hs, hv]
  · rw [actionDispatch_event_cons, eventDispatch_connected, hv]
  · rw [actionDispatch_event_cons, eventDispatch_listener_peak, hv]
  · intro l ls st' e hpl
    simp [processLines, hpl]

/-- C6 (amended, witness): with an empty store, `EVENT foo listeners abc`
raises `ValueError` after creating `foo`, and an erroring first line stops
the second line of the chunk from being processed. -/
theorem c6_amended_witness :
    actionDispatch [] [chars "EVENT", chars "foo", chars "listeners", chars "abc"]
        = (ensureStream [] (chars "foo"), some PyErr.valueError) ∧
    processLines [] [chars "EVENT foo listeners abc", chars "EVENT foo listeners 5"]
        = ([(chars "foo", emptyRecord)], some PyErr.valueError) := by
  have h := c6_amended_parse_error_raises [] (chars "foo") (chars "abc") (by decide)
  refine ⟨h.1 (by decide), ?_⟩
  rw [h.2.2.2 (chars "EVENT foo listeners abc") [chars "EVENT foo listeners 5"]
    [(chars "foo", emptyRecord)] PyErr.valueError (by decide)]

/-- C8: a line that trims to a single token is skipped before dispatch, and
a line of two or more tokens whose action name is not (case-insensitively)
`new`, `delete` or `event` finds no handler: in both cases the store is
completely unchanged and no error is raised. -/
theorem c8_short_or_unknown_line_ignored :
    ∀ (st : Store) (line a s : List Char) (rest : List (List Char)),
      ((tokenize line).length < 2 → processLine st line = (st, none)) ∧
      (lowerStr a ≠ chars "new" → lowerStr a ≠ chars "delete" → lowerStr a ≠ chars "event" →
        actionDispatch st (a :: s :: rest) = (st, none)) := by
  intro st line a s rest
  constructor
  · intro h
    simp [processLine, h]
  · intro h1 h2 h3
    simp only [actionDispatch]
    rw [if_neg]
    rintro (hc | hc | hc)
    exacts [h1 hc, h2 hc, h3 hc]

/-- C8 (witness): the single-token line `PING` and the unknown-action line
`FOO bar` both leave the empty store unchanged with no error. -/
theorem c8_witness :
    processLine [] (chars "PING") = ([], none) ∧
    actionDispatch [] [chars "FOO", chars "bar"] = ([], none) := by
  have h := c8_short_or_unknown_line_ignored [] (chars "PING") (chars "FOO") (chars "bar") []
  exact ⟨h.1 (by decide), h.2 (by decide) (by decide) (by decide)⟩

/-- C9: an `EVENT` line whose key is not (case-insensitively) one of `new`,
`listeners`, `connected`, `title` or `listener_peak`, on a stream id with
no existing record, still mutates the store: the stream id is added,
mapped to the record with no fields set, which serializes as the empty
JSON object. -/
theorem c9_unknown_key_creates_empty_entry :
    ∀ (st : Store) (s key value : List Char),
      st.find s = none →
      lowerStr key ≠ chars "new" → lowerStr key ≠ chars "listeners" →
      lowerStr key ≠ chars "connected" → lowerStr key ≠ chars "title" →
      lowerStr key ≠ chars "listener_peak" →
      actionDispatch st [chars "EVENT", s, key, value] = (st.set s emptyRecord, none) ∧
      (actionDispatch st [chars "EVENT", s, key, value]).1.find s = some emptyRecord ∧
      recordKeys emptyRecord = [] := by
  intro st s key value h0 h1 h2 h3 h4 h5
  have hev : eventDispatch (ensureStream st s) s key value = (ensureStream st s, none) := by
    simp only [eventDispatch]
    rw [if_neg h1, if_neg h2, if_neg h3, if_neg h4, if_neg h5]
  have hred : actionDispatch st [chars "EVENT", s, key, value]
      = (st.set s emptyRecord, none) := by
    rw [actionDispatch_event_cons, hev]
    simp [ensureStream, h0]
  exact ⟨hred, by rw [hred]; simp [find_set_self], rfl⟩

/-- C9 (witness): `EVENT foo color red` on the empty store adds `foo` with
the empty record. -/
theorem c9_witness :
    actionDispatch [] [chars "EVENT", chars "foo", chars "color", chars "red"]
        = (Store.set [] (chars "foo") emptyRecord, none) ∧
    (actionDispatch [] [chars "EVENT", chars "foo", chars "color", chars "red"]).1.find
        (chars "foo") = some emptyRecord ∧
    recordKeys emptyRecord = [] :=
  c9_unknown_key_creates_empty_entry [] (chars "foo") (chars "color") (chars "red")
    rfl (by decide) (by decide) (by decide) (by decide) (by decide)

/-- C10: a two-token line whose first token case-insensitively equals
`event` dispatches to `action_event` without its required `key` argument,
raising `TypeError` rather than silently discarding the line — and the
stream's entry has already been created when the error is raised. -/
theorem c10_event_missing_key_raises :
    ∀ (st : Store) (act s : List Char),
      lowerStr act = chars "event" →
      actionDispatch st [act, s] = (ensureStream st s, some PyErr.typeError) ∧
      ((actionDispatch st [act, s]).1.find s).isSome = true := by
  intro st act s h
  have hred : actionDispatch st [act, s] = (ensureStream st s, some PyErr.typeError) := by
    simp only [actionDispatch, h]
    rw [if_pos (by decide :
          chars "event" = chars "new" ∨ chars "event" = chars "delete" ∨ True),
        if_neg (by decide : ¬chars "event" = chars "new"),
        if_neg (by decide : ¬chars "event" = chars "delete")]
  refine ⟨hred, ?_⟩
  rw [hred]
  simp [find_ensure_self]

/-- C10 (witness): `EVENT foo` (exactly two tokens) on the empty store
raises `TypeError` with `foo` already present in the store. -/
theorem c10_witness :
    actionDispatch [] [chars "EVENT", chars "foo"]
        = (ensureStream [] (chars "foo"), some PyErr.typeError) ∧
    ((actionDispatch [] [chars "EVENT", chars "foo"]).1.find (chars "foo")).isSome = true := by
  have h := c10_event_missing_key_raises [] (chars "EVENT") (chars "foo") (by decide)
  exact h

end Reflect
